import Mathlib

set_option maxHeartbeats 1600000

/- Shallow embedding of the connection-lifecycle, signal/slot dispatch and
   method-call marshaling core of the libcomm repository (src/signal.hpp,
   src/observable.hpp, src/proxy.hpp).  The model is sequential: closures
   posted to a task queue are recorded as events rather than executed, which
   matches the direct-connection code paths the theorems below are about.
   Callables and observer objects are identified by numeric ids, modelling
   the pointer identities the source compares. -/

namespace sigslot

/-- connection_type enumeration, src/signal.hpp:151. -/
def auto_connection : Nat := 0

/-- direct_connection = 1, src/signal.hpp:153. -/
def direct_connection : Nat := 1

/-- queued_connection = 2, src/signal.hpp:154. -/
def queued_connection : Nat := 2

/-- blocking_queued_connection = 3, src/signal.hpp:155. -/
def blocking_queued_connection : Nat := 3

/-- unique_connection = 0x80, src/signal.hpp:156. -/
def unique_connection : Nat := 128

/-- singleshot_connection = 0x100, src/signal.hpp:157. -/
def singleshot_connection : Nat := 256

/-- One slot object: the slot_state fields (m_index, m_group, m_connected,
m_blocked, src/signal.hpp:549) together with the slot_base fields (m_type,
m_unique, m_singleshot, m_emitted, src/signal.hpp:932) and the identity of
the stored callable and (for pmf slots) object.  `sid` models the address of
the heap-allocated slot object; `qcur` models the value of
`m_queue->IsCurrent()` seen by the emitting thread. -/
structure Slot where
  sid : Nat
  callable : Nat
  obj : Option Nat
  index : Nat
  group : Int
  connected : Bool
  blocked : Bool
  unique : Bool
  singleshot : Bool
  emitted : Bool
  ctype : Nat
  qcur : Bool
deriving DecidableEq

/-- The signal: the group list kept sorted by ascending gid
(src/signal.hpp:1528), the global m_block flag, a heap of live slot objects
(the shared_ptr-owned allocations) addressed by sid, and `nextSid` modelling
the allocator (the address the next make_slot call returns). -/
structure SigState where
  heap : List Slot
  groups : List (Int × List Nat)
  sblock : Bool
  nextSid : Nat
deriving DecidableEq

/-- Dereference a slot address (what weak_ptr::lock yields on a slot_state). -/
def lookup (heap : List Slot) (sid : Nat) : Option Slot :=
  heap.find? (fun s => s.sid == sid)

/-- In-place mutation of the slot object stored at address sid. -/
def updateSlot (heap : List Slot) (sid : Nat) (f : Slot → Slot) : List Slot :=
  heap.map (fun s => if s.sid == sid then f s else s)

/-- Observable effects of one emission: the slot function ran inline with the
emitted argument, or a closure was posted to the slot's bound task queue. -/
inductive Event where
  | invoked : Nat → Int → Event
  | posted : Nat → Int → Event
deriving DecidableEq

/-- The sid an event belongs to. -/
def Event.esid : Event → Nat
  | .invoked s _ => s
  | .posted s _ => s

/-- signal_base::clean, src/signal.hpp:1946: find the group with the state's
gid; if the stored index still designates this state, swap it with the
group's last slot, fix the moved slot's index and pop the back.  Returns the
new group list and, when removal happened, the moved sid and its new index. -/
def cleanInGroups : List (Int × List Nat) → Int → Nat → Nat →
    List (Int × List Nat) × Option (Nat × Nat)
  | [], _, _, _ => ([], none)
  | (g, slts) :: rest, gid, idx, sid =>
    if g == gid then
      if idx < slts.length && slts.get? idx == some sid then
        let moved := slts.getLastD 0
        ((g, (slts.set idx moved).dropLast) :: rest, some (moved, idx))
      else
        ((g, slts) :: rest, none)
    else
      let r := cleanInGroups rest gid idx sid
      ((g, slts) :: r.1, r.2)

/-- Apply the outcome of cleanInGroups: install the new group list and, when
a slot was moved by the swap, fix its stored index. -/
def applyClean (st : SigState) (r : List (Int × List Nat) × Option (Nat × Nat)) :
    SigState :=
  match r with
  | (groups', none) => { st with groups := groups' }
  | (groups', some mi) =>
    { st with
      groups := groups'
      heap := updateSlot st.heap mi.1 (fun t => { t with index := mi.2 }) }

/-- signal_base::clean (the cleanable callback invoked by
slot_state::do_disconnect), src/signal.hpp:1946. -/
def clean (st : SigState) (sid : Nat) : SigState :=
  match lookup st.heap sid with
  | none => st
  | some s => applyClean st (cleanInGroups st.groups s.group s.index sid)

/-- The m_connected.exchange(false) store. -/
def storeDisconnected (st : SigState) (sid : Nat) : SigState :=
  { st with
    heap := updateSlot st.heap sid (fun t => { t with connected := false }) }

/-- slot_state::disconnect, src/signal.hpp:562: exchange m_connected with
false; when it was true, run do_disconnect, i.e. m_cleaner.clean(this)
(src/signal.hpp:866). -/
def slot_state.disconnect (st : SigState) (sid : Nat) : SigState × Bool :=
  match lookup st.heap sid with
  | none => (st, false)
  | some s =>
    if s.connected then (clean (storeDisconnected st sid) sid, true)
    else (storeDisconnected st sid, false)

/-- connection::disconnect, src/signal.hpp:668: lock the weak state pointer,
return false when expired, else slot_state::disconnect.  `none` models a
default-constructed connection (empty weak_ptr). -/
def connection.disconnect (st : SigState) (conn : Option Nat) : SigState × Bool :=
  match conn with
  | none => (st, false)
  | some sid => slot_state.disconnect st sid

/-- connection::connected, src/signal.hpp:663. -/
def connection.connected (st : SigState) (conn : Option Nat) : Bool :=
  match conn with
  | none => false
  | some sid =>
    match lookup st.heap sid with
    | none => false
    | some s => s.connected

/-- connection::valid, src/signal.hpp:659. -/
def connection.valid (st : SigState) (conn : Option Nat) : Bool :=
  match conn with
  | none => false
  | some sid => (lookup st.heap sid).isSome

/-- slot_base::can_emit, src/signal.hpp:881. -/
def can_emit (s : Slot) : Bool :=
  !(s.singleshot && s.emitted)

/-- slot_base::type, src/signal.hpp:903: an auto connection resolves to
direct when the bound queue is current, else queued. -/
def resolvedType (s : Slot) : Nat :=
  if s.ctype == 0 then (if s.qcur then 1 else 2) else s.ctype

/-- slot_base::set_emitted, src/signal.hpp:888: the m_emitted store (its
`m_singleshot && !m_emitted` guard stays at the call site in call_slot). -/
def set_emitted (st : SigState) (sid : Nat) : SigState :=
  { st with heap := updateSlot st.heap sid (fun t => { t with emitted := true }) }

/-- The direct_connection branch of slot::call_slot, src/signal.hpp:963:
re-check connected() on the current slot state, run the function inline and,
for a single-shot slot that has emitted, disconnect the slot. -/
def call_slot_direct (st1 : SigState) (sid : Nat) (arg : Int) :
    SigState × List Event :=
  match lookup st1.heap sid with
  | none => (st1, [])
  | some s1 =>
    if s1.connected then
      (if s1.singleshot && s1.emitted then (slot_state.disconnect st1 sid).1
        else st1,
        [Event.invoked sid arg])
    else (st1, [])

/-- slot::call_slot, src/signal.hpp:958: bail out when can_emit fails, run
set_emitted (guarded by m_singleshot && !m_emitted), then dispatch on the
resolved connection type.  The queued and blocking-queued branches post a
closure to the bound task queue, recorded here as a posted event. -/
def call_slot (st : SigState) (sid : Nat) (s : Slot) (arg : Int) :
    SigState × List Event :=
  if s.singleshot && s.emitted then (st, [])
  else if resolvedType s == 1 then
    call_slot_direct (if s.singleshot && !s.emitted then set_emitted st sid else st)
      sid arg
  else
    ((if s.singleshot && !s.emitted then set_emitted st sid else st),
      [Event.posted sid arg])

/-- slot_base::operator(), src/signal.hpp:826: call_slot runs only when the
slot is connected and not blocked. -/
def slot_operator (st : SigState) (sid : Nat) (arg : Int) : SigState × List Event :=
  match lookup st.heap sid with
  | none => (st, [])
  | some s =>
    if s.connected && !s.blocked then call_slot st sid s arg else (st, [])

/-- The emission order: groups ascending by gid, slots in storage order
within each group (the snapshot signal_base::operator() iterates). -/
def snapshot (st : SigState) : List Nat :=
  (st.groups.map Prod.snd).flatten

/-- Iterate the snapshot, threading the state and concatenating the events. -/
def emitList (st : SigState) (sids : List Nat) (arg : Int) : SigState × List Event :=
  match sids with
  | [] => (st, [])
  | k :: rest =>
    ((emitList (slot_operator st k arg).1 rest arg).1,
      (slot_operator st k arg).2 ++ (emitList (slot_operator st k arg).1 rest arg).2)

/-- signal_base::operator(), src/signal.hpp:1569: no-op when the signal is
blocked, else take a snapshot of the group list and invoke every slot in
group order. -/
def emit (st : SigState) (arg : Int) : SigState × List Event :=
  if st.sblock then (st, []) else emitList st (snapshot st) arg

/-- signal_base::add_slot, src/signal.hpp:1982: walk the sorted group list,
insert a fresh group when gid is absent, set the slot's index to the group
size and push it back.  Returns the group list and the assigned index. -/
def add_to_groups : List (Int × List Nat) → Int → Nat →
    List (Int × List Nat) × Nat
  | [], gid, sid => ([(gid, [sid])], 0)
  | (g, ss) :: rest, gid, sid =>
    if g < gid then
      let r := add_to_groups rest gid sid
      ((g, ss) :: r.1, r.2)
    else if g == gid then
      ((g, ss ++ [sid]) :: rest, ss.length)
    else
      ((gid, [sid]) :: (g, ss) :: rest, 0)

/-- Commit a freshly made slot into the signal (add_slot plus the heap
allocation becoming owned by the group storage). -/
def add_slot (st : SigState) (s : Slot) : SigState :=
  { st with
    groups := (add_to_groups st.groups s.group s.sid).1
    heap := st.heap ++ [{ s with index := (add_to_groups st.groups s.group s.sid).2 }]
    nextSid := st.nextSid + 1 }

/-- signal_base::get_slot, src/signal.hpp:2022: first slot in group-storage
order satisfying the condition. -/
def get_slot (st : SigState) (cond : Slot → Bool) : Option Slot :=
  ((snapshot st).filterMap (fun sid => lookup st.heap sid)).find? cond

/-- is_unique on the scan result (the `o && o->is_unique()` test). -/
def isUniqueOpt : Option Slot → Bool
  | none => false
  | some o => o.unique

/-- make_slot for the plain-callable slot variant: the slot_base constructor
masks the unique and singleshot bits out of m_type and latches m_singleshot,
src/signal.hpp:807.  The C++ type parameter is a uint32_t. -/
def make_slot (sid : Nat) (obj : Option Nat) (c : Nat) (type : Nat) (gid : Int)
    (qcur : Bool) : Slot :=
  let t := type % 4294967296
  { sid := sid
    callable := c
    obj := obj
    index := 0
    group := gid
    connected := true
    blocked := false
    unique := false
    singleshot := t &&& 256 != 0
    emitted := false
    ctype := t &&& 4294966399
    qcur := qcur }

/-- The `if (type & unique_connection) s->set_unique(true)` step of connect,
src/signal.hpp:1608. -/
def applyUnique (type : Nat) (s : Slot) : Slot :=
  if type % 4294967296 &&& 128 != 0 then { s with unique := true } else s

/-- signal_base::connect (callable overload), src/signal.hpp:1595: make the
slot, scan the existing slots for one holding an equal callable, refuse with
an already-disconnected connection when the found slot is unique, otherwise
mark the new slot unique when the unique bit is set, add it and return a
live connection. -/
def connect (st : SigState) (c : Nat) (type : Nat) (gid : Int) (qcur : Bool) :
    SigState × Option Nat :=
  if isUniqueOpt (get_slot st (fun u => u.callable == c)) then
    (st, none)
  else
    (add_slot st (applyUnique type (make_slot st.nextSid none c type gid qcur)),
      some st.nextSid)

/-- signal_base::connect (pmf overload for a plain object pointer),
src/signal.hpp:1695: as connect, but the slot stores the object id and the
scan matches has_object(ptr) && has_callable(pmf). -/
def connect_pmf (st : SigState) (o : Nat) (c : Nat) (type : Nat) (gid : Int)
    (qcur : Bool) : SigState × Option Nat :=
  if isUniqueOpt (get_slot st (fun u => u.obj == some o && u.callable == c)) then
    (st, none)
  else
    (add_slot st (applyUnique type (make_slot st.nextSid (some o) c type gid qcur)),
      some st.nextSid)

/-- signal_base::slot_count, src/signal.hpp:1933. -/
def slot_count (st : SigState) : Nat :=
  (st.groups.map (fun g => g.2.length)).sum

/-- signal_base::disconnect_all, src/signal.hpp:1901, runs clear()
(src/signal.hpp:2069) under the lock: the group storage drops every
shared_ptr, destroying all slot objects (nothing else owns them once
emission is not in flight). -/
def disconnect_all (st : SigState) : SigState :=
  { st with heap := [], groups := [] }

/-- The signal_base destructor, src/signal.hpp:1533: it runs disconnect_all. -/
def destroySignal (st : SigState) : SigState :=
  disconnect_all st

/-- A fresh signal (the signal_base constructor, src/signal.hpp:1532). -/
def emptySig : SigState :=
  { heap := [], groups := [], sblock := false, nextSid := 0 }

/-- The slot fields that determine emission behaviour: everything except the
storage index (which signal_base::clean rewrites when it swap-removes a
different slot of the same group). -/
def coreOf (s : Slot) : Slot :=
  { s with index := 0 }

/-- The events a slot contributes to an emission trace. -/
def eventsFor (evs : List Event) (sid : Nat) : List Event :=
  evs.filter (fun e => e.esid == sid)

theorem lookup_cons (a : Slot) (tl : List Slot) (j : Nat) :
    lookup (a :: tl) j = cond (a.sid == j) (some a) (lookup tl j) := rfl

theorem lookup_update_ne (h : List Slot) (k j : Nat) (f : Slot → Slot)
    (hf : ∀ t, (f t).sid = t.sid) (hjk : j ≠ k) :
    lookup (updateSlot h k f) j = lookup h j := by
  induction h with
  | nil => rfl
  | cons a tl ih =>
    by_cases hk : a.sid = k
    · have h1 : updateSlot (a :: tl) k f = f a :: updateSlot tl k f := by
        simp [updateSlot, hk]
      rw [h1, lookup_cons, lookup_cons]
      have h2 : ((f a).sid == j) = false := by
        simp [hf a, hk]
        exact fun h => hjk h.symm
      have h3 : (a.sid == j) = false := by
        simp [hk]
        exact fun h => hjk h.symm
      rw [h2, h3]
      simpa using ih
    · have h1 : updateSlot (a :: tl) k f = a :: updateSlot tl k f := by
        simp [updateSlot, hk]
      rw [h1, lookup_cons, lookup_cons]
      cases hj : (a.sid == j) with
      | true => rfl
      | false => simpa using ih

theorem lookup_update_self (h : List Slot) (k : Nat) (f : Slot → Slot)
    (hf : ∀ t, (f t).sid = t.sid) :
    lookup (updateSlot h k f) k = (lookup h k).map f := by
  induction h with
  | nil => rfl
  | cons a tl ih =>
    by_cases hk : a.sid = k
    · have h1 : updateSlot (a :: tl) k f = f a :: updateSlot tl k f := by
        simp [updateSlot, hk]
      rw [h1, lookup_cons, lookup_cons]
      have h2 : ((f a).sid == k) = true := by simp [hf a, hk]
      have h3 : (a.sid == k) = true := by simp [hk]
      rw [h2, h3]
      rfl
    · have h1 : updateSlot (a :: tl) k f = a :: updateSlot tl k f := by
        simp [updateSlot, hk]
      have h3 : (a.sid == k) = false := by simp [hk]
      rw [h1, lookup_cons, lookup_cons, h3]
      simpa using ih

theorem coreOf_update_index (t : Slot) (n : Nat) :
    coreOf { t with index := n } = coreOf t := rfl

/-- Equation lemmas driving the match reductions below. -/
theorem clean_eq_none (st : SigState) (sid : Nat)
    (h : lookup st.heap sid = none) : clean st sid = st := by
  unfold clean
  rw [h]

theorem clean_eq_some (st : SigState) (sid : Nat) (s : Slot)
    (h : lookup st.heap sid = some s) :
    clean st sid = applyClean st (cleanInGroups st.groups s.group s.index sid) := by
  unfold clean
  rw [h]

theorem disconnect_eq_none (st : SigState) (sid : Nat)
    (h : lookup st.heap sid = none) :
    slot_state.disconnect st sid = (st, false) := by
  unfold slot_state.disconnect
  rw [h]

theorem disconnect_eq_some (st : SigState) (sid : Nat) (s : Slot)
    (h : lookup st.heap sid = some s) :
    slot_state.disconnect st sid =
      if s.connected then (clean (storeDisconnected st sid) sid, true)
      else (storeDisconnected st sid, false) := by
  unfold slot_state.disconnect
  rw [h]

theorem slot_operator_eq_none (st : SigState) (sid : Nat) (arg : Int)
    (h : lookup st.heap sid = none) :
    slot_operator st sid arg = (st, []) := by
  unfold slot_operator
  rw [h]

theorem slot_operator_eq_some (st : SigState) (sid : Nat) (arg : Int) (s : Slot)
    (h : lookup st.heap sid = some s) :
    slot_operator st sid arg =
      if s.connected && !s.blocked then call_slot st sid s arg else (st, []) := by
  unfold slot_operator
  rw [h]

theorem call_slot_direct_eq_none (st1 : SigState) (sid : Nat) (arg : Int)
    (h : lookup st1.heap sid = none) :
    call_slot_direct st1 sid arg = (st1, []) := by
  unfold call_slot_direct
  rw [h]

theorem call_slot_direct_eq_some (st1 : SigState) (sid : Nat) (arg : Int)
    (s1 : Slot) (h : lookup st1.heap sid = some s1) :
    call_slot_direct st1 sid arg =
      if s1.connected then
        (if s1.singleshot && s1.emitted then (slot_state.disconnect st1 sid).1
          else st1,
          [Event.invoked sid arg])
      else (st1, []) := by
  unfold call_slot_direct
  rw [h]

/-- applyClean only rewrites group storage and one slot's index: it preserves
the core of every slot. -/
theorem applyClean_core (st : SigState)
    (r : List (Int × List Nat) × Option (Nat × Nat)) (j : Nat) :
    ((lookup (applyClean st r).heap j).map coreOf)
      = (lookup st.heap j).map coreOf := by
  rcases r with ⟨gs, mo⟩
  cases mo with
  | none => rfl
  | some mi =>
    simp only [applyClean]
    by_cases hj : j = mi.1
    · subst hj
      rw [lookup_update_self st.heap mi.1 (fun t => { t with index := mi.2 })
        (fun t => rfl)]
      cases lookup st.heap mi.1 <;> rfl
    · rw [lookup_update_ne st.heap mi.1 j (fun t => { t with index := mi.2 })
        (fun t => rfl) hj]

theorem clean_core (st : SigState) (sid : Nat) (j : Nat) :
    ((lookup (clean st sid).heap j).map coreOf)
      = (lookup st.heap j).map coreOf := by
  cases hl : lookup st.heap sid with
  | none => rw [clean_eq_none st sid hl]
  | some s =>
    rw [clean_eq_some st sid s hl]
    exact applyClean_core st _ j

theorem storeDisconnected_lookup_ne (st : SigState) (sid : Nat) (j : Nat)
    (hj : j ≠ sid) :
    lookup (storeDisconnected st sid).heap j = lookup st.heap j := by
  unfold storeDisconnected
  exact lookup_update_ne _ _ _ _ (fun t => rfl) hj

/-- slot_state::disconnect preserves the cores of all other slots. -/
theorem disconnect_core (st : SigState) (sid : Nat) (j : Nat) (hj : j ≠ sid) :
    ((lookup (slot_state.disconnect st sid).1.heap j).map coreOf)
      = (lookup st.heap j).map coreOf := by
  cases hl : lookup st.heap sid with
  | none => rw [disconnect_eq_none st sid hl]
  | some s =>
    rw [disconnect_eq_some st sid s hl]
    by_cases hc : s.connected = true
    · rw [if_pos hc]
      show ((lookup (clean (storeDisconnected st sid) sid).heap j).map coreOf) = _
      rw [clean_core, storeDisconnected_lookup_ne st sid j hj]
    · rw [if_neg hc]
      show ((lookup (storeDisconnected st sid).heap j).map coreOf) = _
      rw [storeDisconnected_lookup_ne st sid j hj]

theorem set_emitted_lookup_ne (st : SigState) (sid : Nat) (j : Nat)
    (hj : j ≠ sid) :
    lookup (set_emitted st sid).heap j = lookup st.heap j := by
  unfold set_emitted
  exact lookup_update_ne _ _ _ _ (fun t => rfl) hj

theorem set_emitted_lookup_self (st : SigState) (sid : Nat) :
    lookup (set_emitted st sid).heap sid
      = (lookup st.heap sid).map (fun t => { t with emitted := true }) := by
  unfold set_emitted
  exact lookup_update_self _ _ _ (fun t => rfl)

/-- The direct branch of call_slot preserves the cores of all other slots. -/
theorem call_slot_direct_core (st1 : SigState) (sid : Nat) (arg : Int) (j : Nat)
    (hj : j ≠ sid) :
    ((lookup (call_slot_direct st1 sid arg).1.heap j).map coreOf)
      = (lookup st1.heap j).map coreOf := by
  cases hl : lookup st1.heap sid with
  | none => rw [call_slot_direct_eq_none st1 sid arg hl]
  | some s1 =>
    rw [call_slot_direct_eq_some st1 sid arg s1 hl]
    by_cases hc : s1.connected = true
    · rw [if_pos hc]
      by_cases hse : (s1.singleshot && s1.emitted) = true
      · rw [if_pos hse]
        show ((lookup (slot_state.disconnect st1 sid).1.heap j).map coreOf) = _
        rw [disconnect_core st1 sid j hj]
      · rw [if_neg hse]
    · rw [if_neg hc]

/-- slot_base::operator() on slot k preserves the cores of all other slots. -/
theorem slot_operator_core (st : SigState) (k : Nat) (arg : Int) (j : Nat)
    (hj : j ≠ k) :
    ((lookup (slot_operator st k arg).1.heap j).map coreOf)
      = (lookup st.heap j).map coreOf := by
  cases hl : lookup st.heap k with
  | none => rw [slot_operator_eq_none st k arg hl]
  | some s =>
    rw [slot_operator_eq_some st k arg s hl]
    by_cases hcb : (s.connected && !s.blocked) = true
    · rw [if_pos hcb]
      unfold call_slot
      by_cases hce : (s.singleshot && s.emitted) = true
      · rw [if_pos hce]
      · rw [if_neg hce]
        have hst1 : ((lookup (if s.singleshot && !s.emitted then set_emitted st k
            else st).heap j).map coreOf) = (lookup st.heap j).map coreOf := by
          by_cases hss : (s.singleshot && !s.emitted) = true
          · rw [if_pos hss, set_emitted_lookup_ne st k j hj]
          · rw [if_neg hss]
        by_cases hrt : (resolvedType s == 1) = true
        · rw [if_pos hrt]
          rw [call_slot_direct_core _ k arg j hj, hst1]
        · rw [if_neg hrt]
          exact hst1
    · rw [if_neg hcb]

/-- The events slot_operator produces: nothing, one inline invocation for its
own sid, or one posted closure for its own sid. -/
theorem slot_operator_events (st : SigState) (k : Nat) (arg : Int) :
    (slot_operator st k arg).2 = []
      ∨ (slot_operator st k arg).2 = [Event.invoked k arg]
      ∨ (slot_operator st k arg).2 = [Event.posted k arg] := by
  cases hl : lookup st.heap k with
  | none =>
    rw [slot_operator_eq_none st k arg hl]
    exact Or.inl rfl
  | some s =>
    rw [slot_operator_eq_some st k arg s hl]
    by_cases hcb : (s.connected && !s.blocked) = true
    · rw [if_pos hcb]
      unfold call_slot
      by_cases hce : (s.singleshot && s.emitted) = true
      · rw [if_pos hce]
        exact Or.inl rfl
      · rw [if_neg hce]
        by_cases hrt : (resolvedType s == 1) = true
        · rw [if_pos hrt]
          cases hl1 : lookup (if s.singleshot && !s.emitted then set_emitted st k
              else st).heap k with
          | none =>
            rw [call_slot_direct_eq_none _ k arg hl1]
            exact Or.inl rfl
          | some s1 =>
            rw [call_slot_direct_eq_some _ k arg s1 hl1]
            by_cases hc1 : s1.connected = true
            · rw [if_pos hc1]
              exact Or.inr (Or.inl rfl)
            · rw [if_neg hc1]
              exact Or.inl rfl
        · rw [if_neg hrt]
          exact Or.inr (Or.inr rfl)
    · rw [if_neg hcb]
      exact Or.inl rfl

/-- The behaviour of a direct-connection slot under slot_operator as a
function of its pre-emission state.  The hypothesis hinv is the
reachable-state invariant: a single-shot slot that has already emitted has
already disconnected itself (src/signal.hpp:966). -/
theorem slot_operator_direct (st : SigState) (k : Nat) (arg : Int) (s : Slot)
    (hlk : lookup st.heap k = some s) (hdir : s.ctype = 1)
    (hinv : s.singleshot = true → s.emitted = true → s.connected = false) :
    (slot_operator st k arg).2
      = if s.connected && !s.blocked then [Event.invoked k arg] else [] := by
  rw [slot_operator_eq_some st k arg s hlk]
  by_cases hcb : (s.connected && !s.blocked) = true
  · rw [if_pos hcb, if_pos hcb]
    have hcon : s.connected = true := by
      revert hcb
      cases s.connected <;> simp
    have hce : (s.singleshot && s.emitted) = false := by
      cases hss : s.singleshot with
      | false => simp
      | true =>
        cases hem : s.emitted with
        | false => simp
        | true => rw [hinv hss hem] at hcon; cases hcon
    have hrt : (resolvedType s == 1) = true := by
      simp [resolvedType, hdir]
    unfold call_slot
    rw [if_neg (by simp [hce]), if_pos hrt]
    by_cases hss : (s.singleshot && !s.emitted) = true
    · rw [if_pos hss]
      have hl1 : lookup (set_emitted st k).heap k
          = some { s with emitted := true } := by
        rw [set_emitted_lookup_self st k, hlk]
        rfl
      rw [call_slot_direct_eq_some _ k arg _ hl1]
      rw [if_pos (by simpa using hcon)]
    · rw [if_neg hss]
      rw [call_slot_direct_eq_some st k arg s hlk]
      rw [if_pos hcon]
  · rw [if_neg hcb, if_neg hcb]

theorem coreOf_ctype (s : Slot) : (coreOf s).ctype = s.ctype := rfl

theorem coreOf_connected (s : Slot) : (coreOf s).connected = s.connected := rfl

theorem coreOf_blocked (s : Slot) : (coreOf s).blocked = s.blocked := rfl

theorem coreOf_singleshot (s : Slot) : (coreOf s).singleshot = s.singleshot := rfl

theorem coreOf_emitted (s : Slot) : (coreOf s).emitted = s.emitted := rfl

theorem eventsFor_append (a b : List Event) (sid : Nat) :
    eventsFor (a ++ b) sid = eventsFor a sid ++ eventsFor b sid := by
  simp [eventsFor]

/-- A sid outside the iterated list receives no events. -/
theorem emitList_eventsFor_not_mem (sids : List Nat) (st : SigState) (arg : Int)
    (jsid : Nat) (h : jsid ∉ sids) :
    eventsFor (emitList st sids arg).2 jsid = [] := by
  induction sids generalizing st with
  | nil => rfl
  | cons k rest ih =>
    have hk : jsid ≠ k := fun he => h (he ▸ List.mem_cons_self k rest)
    have hrest : jsid ∉ rest := fun hm => h (List.mem_cons_of_mem k hm)
    simp only [emitList]
    rw [eventsFor_append]
    have hhead : eventsFor (slot_operator st k arg).2 jsid = [] := by
      rcases slot_operator_events st k arg with h1 | h1 | h1 <;>
        rw [h1] <;> simp [eventsFor, Event.esid, Ne.symm hk]
    rw [hhead, List.nil_append]
    exact ih _ hrest

/-- The induction behind C1: iterating a duplicate-free sid list invokes a
direct-mode slot of the list exactly once when it is connected and unblocked,
and not at all otherwise. -/
theorem emitList_eventsFor (sids : List Nat) (st : SigState) (arg : Int)
    (jsid : Nat) (s : Slot) (hnd : sids.Nodup) (hmem : jsid ∈ sids)
    (hlk : lookup st.heap jsid = some s) (hdir : s.ctype = 1)
    (hinv : s.singleshot = true → s.emitted = true → s.connected = false) :
    eventsFor (emitList st sids arg).2 jsid
      = if s.connected && !s.blocked then [Event.invoked jsid arg] else [] := by
  induction sids generalizing st s with
  | nil => cases hmem
  | cons k rest ih =>
    simp only [emitList]
    rw [eventsFor_append]
    by_cases hk : jsid = k
    · subst hk
      have hrest : jsid ∉ rest := (List.nodup_cons.mp hnd).1
      rw [emitList_eventsFor_not_mem rest _ arg jsid hrest, List.append_nil]
      rw [slot_operator_direct st jsid arg s hlk hdir hinv]
      by_cases hcb : (s.connected && !s.blocked) = true
      · rw [if_pos hcb]
        simp [eventsFor, Event.esid]
      · rw [if_neg hcb]
        rfl
    · have hmem2 : jsid ∈ rest := by
        cases hmem with
        | head => exact absurd rfl hk
        | tail _ hm => exact hm
      have hkk : k ≠ jsid := fun he => hk he.symm
      have hhead : eventsFor (slot_operator st k arg).2 jsid = [] := by
        rcases slot_operator_events st k arg with h1 | h1 | h1 <;>
          rw [h1] <;> simp [eventsFor, Event.esid, hkk]
      rw [hhead, List.nil_append]
      have hframe := slot_operator_core st k arg jsid hk
      rw [hlk] at hframe
      cases hl2 : lookup (slot_operator st k arg).1.heap jsid with
      | none => rw [hl2] at hframe; cases hframe
      | some s2 =>
        rw [hl2] at hframe
        have hcore : coreOf s2 = coreOf s := Option.some.inj hframe
        have hct : s2.ctype = s.ctype := by
          rw [← coreOf_ctype s2, hcore, coreOf_ctype]
        have hcn : s2.connected = s.connected := by
          rw [← coreOf_connected s2, hcore, coreOf_connected]
        have hbl : s2.blocked = s.blocked := by
          rw [← coreOf_blocked s2, hcore, coreOf_blocked]
        have hsg : s2.singleshot = s.singleshot := by
          rw [← coreOf_singleshot s2, hcore, coreOf_singleshot]
        have hem : s2.emitted = s.emitted := by
          rw [← coreOf_emitted s2, hcore, coreOf_emitted]
        have hinv2 : s2.singleshot = true → s2.emitted = true →
            s2.connected = false := by
          rw [hsg, hem, hcn]
          exact hinv
        rw [ih _ s2 (List.nodup_cons.mp hnd).2 hmem2 hl2 (hct.trans hdir) hinv2]
        rw [hcn, hbl]

/-- Membership plus sid-uniqueness pins down the heap lookup. -/
theorem lookup_of_mem (heap : List Slot) (s : Slot)
    (hnd : (heap.map Slot.sid).Nodup) (hs : s ∈ heap) :
    lookup heap s.sid = some s := by
  induction heap with
  | nil => cases hs
  | cons a tl ih =>
    rw [List.map_cons, List.nodup_cons] at hnd
    cases hs with
    | head => rw [lookup_cons]; simp
    | tail _ hs2 =>
      have hne : a.sid ≠ s.sid := by
        intro he
        exact hnd.1 (he ▸ List.mem_map_of_mem Slot.sid hs2)
      rw [lookup_cons]
      have h2 : (a.sid == s.sid) = false := by simp [hne]
      rw [h2]
      exact ih hnd.2 hs2

/-- A whole sequence of emissions (used by the single-shot claim). -/
def emitSeq (st : SigState) (args : List Int) : SigState × List Event :=
  match args with
  | [] => (st, [])
  | a :: rest =>
    ((emitSeq (emit st a).1 rest).1,
      (emit st a).2 ++ (emitSeq (emit st a).1 rest).2)

/-- C1: for every signal state with well-formed slot storage, one emission via
signal_base::operator() invokes each connected, unblocked direct-mode slot
exactly once with the supplied argument, and produces no event at all for a
slot that is disconnected or blocked. -/
theorem direct_emission_invokes_each_live_slot_exactly_once
    (st : SigState) (arg : Int) (s : Slot)
    (hheap : (st.heap.map Slot.sid).Nodup)
    (hsnap : (snapshot st).Nodup)
    (hblk : st.sblock = false)
    (hs : s ∈ st.heap) (hmem : s.sid ∈ snapshot st)
    (hdir : s.ctype = direct_connection)
    (hinv : s.singleshot = true → s.emitted = true → s.connected = false) :
    eventsFor (emit st arg).2 s.sid
      = if s.connected && !s.blocked then [Event.invoked s.sid arg] else [] := by
  unfold emit
  rw [hblk, if_neg Bool.false_ne_true]
  exact emitList_eventsFor (snapshot st) st arg s.sid s hsnap hmem
    (lookup_of_mem st.heap s hheap hs) hdir hinv

/-- A live direct slot of the witness signal below. -/
def wSlotA : Slot :=
  { sid := 0, callable := 10, obj := none, index := 0, group := 0,
    connected := true, blocked := false, unique := false, singleshot := false,
    emitted := false, ctype := 1, qcur := false }

/-- A blocked slot. -/
def wSlotB : Slot :=
  { wSlotA with sid := 1, callable := 11, index := 1, blocked := true }

/-- A disconnected slot. -/
def wSlotC : Slot :=
  { wSlotA with sid := 2, callable := 12, index := 2, connected := false }

/-- A three-slot signal exercising the emission theorem. -/
def wSig : SigState :=
  { heap := [wSlotA, wSlotB, wSlotC], groups := [(0, [0, 1, 2])],
    sblock := false, nextSid := 3 }

theorem direct_emission_invokes_each_live_slot_exactly_once_witness :
    eventsFor (emit wSig 5).2 0 = [Event.invoked 0 5]
      ∧ eventsFor (emit wSig 5).2 1 = [] := by
  constructor
  · have h := direct_emission_invokes_each_live_slot_exactly_once wSig 5 wSlotA
      (by decide) (by decide) rfl (by decide) (by decide) rfl (by decide)
    simpa [wSlotA] using h
  · have h := direct_emission_invokes_each_live_slot_exactly_once wSig 5 wSlotB
      (by decide) (by decide) rfl (by decide) (by decide) rfl (by decide)
    simpa [wSlotB, wSlotA] using h

theorem lookup_mem (h : List Slot) (sid : Nat) (t : Slot)
    (hl : lookup h sid = some t) : t ∈ h :=
  List.mem_of_find?_eq_some hl

theorem lookup_sid_eq (h : List Slot) (sid : Nat) (t : Slot)
    (hl : lookup h sid = some t) : t.sid = sid := by
  have h2 := List.find?_some hl
  simpa using h2

theorem lookup_eq_none (h : List Slot) (sid : Nat)
    (hall : ∀ t ∈ h, t.sid ≠ sid) : lookup h sid = none := by
  apply List.find?_eq_none.mpr
  intro t ht
  simp [hall t ht]

theorem lookup_append_none (h1 h2 : List Slot) (sid : Nat)
    (hn : lookup h1 sid = none) :
    lookup (h1 ++ h2) sid = lookup h2 sid := by
  induction h1 with
  | nil => rfl
  | cons a tl ih =>
    rw [lookup_cons] at hn
    cases ha : (a.sid == sid) with
    | true => rw [ha] at hn; cases hn
    | false =>
      rw [ha, Bool.cond_false] at hn
      show cond (a.sid == sid) (some a) (lookup (tl ++ h2) sid) = _
      rw [ha, Bool.cond_false]
      exact ih hn

theorem lookup_append_some (h1 h2 : List Slot) (sid : Nat) (t : Slot)
    (hs : lookup h1 sid = some t) :
    lookup (h1 ++ h2) sid = some t := by
  induction h1 with
  | nil => cases hs
  | cons a tl ih =>
    rw [lookup_cons] at hs
    show cond (a.sid == sid) (some a) (lookup (tl ++ h2) sid) = _
    cases ha : (a.sid == sid) with
    | true =>
      rw [ha] at hs
      rw [Bool.cond_true]
      exact hs
    | false =>
      rw [ha, Bool.cond_false] at hs
      rw [Bool.cond_false]
      exact ih hs

theorem find?_middle (p : Slot → Bool) (A B : List Slot) (x : Slot)
    (hA : ∀ a ∈ A, p a = false) (hx : p x = true) :
    List.find? p (A ++ x :: B) = some x := by
  induction A with
  | nil =>
    show cond (p x) (some x) (List.find? p B) = some x
    rw [hx, Bool.cond_true]
  | cons a tl ih =>
    have ha := hA a (List.mem_cons_self a tl)
    show cond (p a) (some a) (List.find? p (tl ++ x :: B)) = some x
    rw [ha, Bool.cond_false]
    exact ih (fun b hb => hA b (List.mem_cons_of_mem a hb))

/-- add_to_groups splices the new sid into the emission order: the flattened
snapshot gains exactly one occurrence of sid, somewhere in the middle. -/
theorem add_to_groups_flatten (groups : List (Int × List Nat)) (gid : Int)
    (sid : Nat) :
    ∃ pre post,
      (groups.map Prod.snd).flatten = pre ++ post
      ∧ ((add_to_groups groups gid sid).1.map Prod.snd).flatten
          = pre ++ sid :: post := by
  induction groups with
  | nil => exact ⟨[], [], rfl, rfl⟩
  | cons gp rest ih =>
    rcases gp with ⟨g, ss⟩
    by_cases hlt : g < gid
    · rcases ih with ⟨pre, post, h1, h2⟩
      refine ⟨ss ++ pre, post, ?_, ?_⟩
      · show ss ++ (rest.map Prod.snd).flatten = (ss ++ pre) ++ post
        rw [h1, List.append_assoc]
      · have hu : add_to_groups ((g, ss) :: rest) gid sid
            = if g < gid then
                ((g, ss) :: (add_to_groups rest gid sid).1,
                  (add_to_groups rest gid sid).2)
              else if g == gid then ((g, ss ++ [sid]) :: rest, ss.length)
              else ((gid, [sid]) :: (g, ss) :: rest, 0) := rfl
        rw [hu, if_pos hlt]
        show ss ++ ((add_to_groups rest gid sid).1.map Prod.snd).flatten
            = (ss ++ pre) ++ sid :: post
        rw [h2, List.append_assoc]
    · by_cases heq : g = gid
      · refine ⟨ss, (rest.map Prod.snd).flatten, rfl, ?_⟩
        have hu : add_to_groups ((g, ss) :: rest) gid sid
            = if g < gid then
                ((g, ss) :: (add_to_groups rest gid sid).1,
                  (add_to_groups rest gid sid).2)
              else if g == gid then ((g, ss ++ [sid]) :: rest, ss.length)
              else ((gid, [sid]) :: (g, ss) :: rest, 0) := rfl
        rw [hu, if_neg hlt, if_pos (by simp [heq])]
        show (ss ++ [sid]) ++ (rest.map Prod.snd).flatten
            = ss ++ sid :: (rest.map Prod.snd).flatten
        simp
      · refine ⟨[], ss ++ (rest.map Prod.snd).flatten, rfl, ?_⟩
        have hu : add_to_groups ((g, ss) :: rest) gid sid
            = if g < gid then
                ((g, ss) :: (add_to_groups rest gid sid).1,
                  (add_to_groups rest gid sid).2)
              else if g == gid then ((g, ss ++ [sid]) :: rest, ss.length)
              else ((gid, [sid]) :: (g, ss) :: rest, 0) := rfl
        rw [hu, if_neg hlt, if_neg (by simp [heq])]
        show [sid] ++ (ss ++ (rest.map Prod.snd).flatten)
            = [] ++ sid :: (ss ++ (rest.map Prod.snd).flatten)
        simp

/-- After add_slot, an equal-callable scan that fails on every pre-existing
slot finds exactly the freshly installed slot. -/
theorem get_slot_after_add (st : SigState) (s : Slot) (c : Nat)
    (hfresh : ∀ t ∈ st.heap, t.sid ≠ s.sid)
    (hsnap : ∀ x ∈ snapshot st, x ≠ s.sid)
    (hfail : ∀ t ∈ st.heap, (t.callable == c) = false)
    (hc : s.callable = c) :
    get_slot (add_slot st s) (fun u => u.callable == c)
      = some { s with index := (add_to_groups st.groups s.group s.sid).2 } := by
  rcases add_to_groups_flatten st.groups s.group s.sid with ⟨pre, post, h1, h2⟩
  have hsn : snapshot (add_slot st s) = pre ++ s.sid :: post := h2
  have hheap : (add_slot st s).heap
      = st.heap ++ [{ s with index := (add_to_groups st.groups s.group s.sid).2 }] :=
    rfl
  have hnone : lookup st.heap s.sid = none := lookup_eq_none st.heap s.sid hfresh
  have hnew : lookup (add_slot st s).heap s.sid
      = some { s with index := (add_to_groups st.groups s.group s.sid).2 } := by
    rw [hheap, lookup_append_none st.heap _ s.sid hnone, lookup_cons]
    have : (({ s with index := (add_to_groups st.groups s.group s.sid).2 } : Slot).sid
        == s.sid) = true := by simp
    rw [this, Bool.cond_true]
  unfold get_slot
  rw [hsn, List.filterMap_append, List.filterMap_cons, hnew]
  apply find?_middle
  · intro y hy
    rcases List.mem_filterMap.mp hy with ⟨x, hxpre, hlk⟩
    have hxs : x ∈ snapshot st := by
      show x ∈ (st.groups.map Prod.snd).flatten
      rw [h1]
      exact List.mem_append_left post hxpre
    have hxne : x ≠ s.sid := hsnap x hxs
    rw [hheap] at hlk
    cases ho : lookup st.heap x with
    | some t =>
      rw [lookup_append_some st.heap _ x t ho] at hlk
      have hyt : y = t := by injection hlk.symm
      rw [hyt]
      exact hfail t (lookup_mem st.heap x t ho)
    | none =>
      rw [lookup_append_none st.heap _ x ho, lookup_cons] at hlk
      have hne : (({ s with index := (add_to_groups st.groups s.group s.sid).2 }
          : Slot).sid == x) = false := by
        simp
        exact fun he => hxne he.symm
      rw [hne, Bool.cond_false] at hlk
      cases hlk
  · simp [hc]

/-- C3: on any signal in which callable c is not yet connected (with
well-formed slot storage and a fresh allocator), connecting c twice with the
unique flag set on both calls (any type with the 0x80 bit) leaves the second
connect returning a connection whose connected() is false, and slot_count is
unchanged: the second connect leaves the signal untouched. -/
theorem unique_second_connect_refused (st : SigState) (c type : Nat)
    (gid : Int) (q : Bool)
    (hty : (type % 4294967296 &&& 128 != 0) = true)
    (hfresh : ∀ t ∈ st.heap, t.sid ≠ st.nextSid)
    (hsnap : ∀ x ∈ snapshot st, x ≠ st.nextSid)
    (hnoc : ∀ t ∈ st.heap, (t.callable == c) = false) :
    connection.connected
        (connect (connect st c type gid q).1 c type gid q).1
        (connect (connect st c type gid q).1 c type gid q).2 = false
    ∧ slot_count (connect (connect st c type gid q).1 c type gid q).1
        = slot_count (connect st c type gid q).1 := by
  have h0 : get_slot st (fun u => u.callable == c) = none := by
    unfold get_slot
    apply List.find?_eq_none.mpr
    intro y hy
    rcases List.mem_filterMap.mp hy with ⟨x, hx, hlk⟩
    simp [hnoc y (lookup_mem st.heap x y hlk)]
  have huq : applyUnique type (make_slot st.nextSid none c type gid q)
      = { make_slot st.nextSid none c type gid q with unique := true } := by
    unfold applyUnique
    rw [if_pos hty]
  have h1 : connect st c type gid q
      = (add_slot st { make_slot st.nextSid none c type gid q with unique := true },
          some st.nextSid) := by
    unfold connect
    rw [h0, huq]
    rfl
  have h2 := get_slot_after_add st
    { make_slot st.nextSid none c type gid q with unique := true } c
    hfresh hsnap hnoc rfl
  have h3 : connect
      (add_slot st { make_slot st.nextSid none c type gid q with unique := true })
      c type gid q
      = (add_slot st { make_slot st.nextSid none c type gid q with unique := true },
          none) := by
    unfold connect
    rw [h2]
    rfl
  simp [h1, h3, connection.connected]

theorem unique_second_connect_refused_witness :
    connection.connected
        (connect (connect emptySig 7 129 0 false).1 7 129 0 false).1
        (connect (connect emptySig 7 129 0 false).1 7 129 0 false).2 = false
    ∧ slot_count (connect (connect emptySig 7 129 0 false).1 7 129 0 false).1
        = slot_count (connect emptySig 7 129 0 false).1 :=
  unique_second_connect_refused emptySig 7 129 0 false (by decide) (by decide)
    (by decide) (by decide)

/-- The single-shot slot of the C4 scenario (type 257 = direct | singleshot). -/
def ssSlot (c : Nat) (g : Int) : Slot :=
  { sid := 0, callable := c, obj := none, index := 0, group := g,
    connected := true, blocked := false, unique := false, singleshot := true,
    emitted := false, ctype := 1, qcur := false }

/-- The signal state right after connecting the single-shot slot. -/
def ssSig (c : Nat) (g : Int) : SigState :=
  { heap := [ssSlot c g], groups := [(g, [0])], sblock := false, nextSid := 1 }

/-- The signal state after the single-shot slot fired and disconnected
itself: emitted, disconnected and swap-removed from its group. -/
def ssSigDone (c : Nat) (g : Int) : SigState :=
  { heap := [{ ssSlot c g with emitted := true, connected := false }],
    groups := [(g, [])], sblock := false, nextSid := 1 }

/-- C4: a slot connected with the single-shot flag executes its body exactly
once across a sequence of 5 emissions, with the first emission\'s argument,
and reports connected() = false immediately after the first emission and
still at the end. -/
theorem single_shot_five_emissions_one_invocation (c : Nat) (g : Int)
    (a1 a2 a3 a4 a5 : Int) :
    eventsFor (emitSeq (connect emptySig c 257 g false).1 [a1, a2, a3, a4, a5]).2 0
      = [Event.invoked 0 a1]
    ∧ connection.connected (emit (connect emptySig c 257 g false).1 a1).1
        (connect emptySig c 257 g false).2 = false
    ∧ connection.connected
        (emitSeq (connect emptySig c 257 g false).1 [a1, a2, a3, a4, a5]).1
        (connect emptySig c 257 g false).2 = false := by
  have h1 : connect emptySig c 257 g false = (ssSig c g, some 0) := rfl
  have h2 : ∀ a : Int, emit (ssSig c g) a = (ssSigDone c g, [Event.invoked 0 a]) := by
    intro a
    simp [emit, snapshot, ssSig, ssSigDone, ssSlot, emitList, slot_operator,
      lookup, call_slot, call_slot_direct, set_emitted, updateSlot,
      slot_state.disconnect, storeDisconnected, clean, cleanInGroups,
      applyClean, resolvedType]
  have h3 : ∀ a : Int, emit (ssSigDone c g) a = (ssSigDone c g, []) := fun a => rfl
  refine ⟨?_, ?_, ?_⟩
  · simp only [h1, emitSeq, h2, h3]
    simp [eventsFor, Event.esid]
  · simp only [h1, h2]
    rfl
  · simp only [h1, emitSeq, h2, h3]
    rfl

/-- Slot A of the C5 scenario: group 0, connected first. -/
def gSlotA (ca : Nat) : Slot :=
  { sid := 0, callable := ca, obj := none, index := 0, group := 0,
    connected := true, blocked := false, unique := false, singleshot := false,
    emitted := false, ctype := 1, qcur := false }

/-- The signal after connecting A. -/
def gSigA (ca : Nat) : SigState :=
  { heap := [gSlotA ca], groups := [(0, [0])], sblock := false, nextSid := 1 }

/-- Slot B of the C5 scenario: group -1, connected second. -/
def gSlotB (cb : Nat) : Slot :=
  { sid := 1, callable := cb, obj := none, index := 0, group := -1,
    connected := true, blocked := false, unique := false, singleshot := false,
    emitted := false, ctype := 1, qcur := false }

/-- The signal after connecting A to group 0 and B to group -1: the group
list is kept sorted ascending, so group -1 precedes group 0. -/
def gSigAB (ca cb : Nat) : SigState :=
  { heap := [gSlotA ca, gSlotB cb], groups := [(-1, [1]), (0, [0])],
    sblock := false, nextSid := 2 }

/-- C5: groups are visited in ascending group-id order: with slot A (sid 0)
in group 0 and slot B (sid 1) in group -1, emitting 42 invokes B with 42
strictly before A. -/
theorem emission_visits_groups_ascending (ca cb : Nat) :
    (connect emptySig ca 1 0 false).2 = some 0
    ∧ (connect (connect emptySig ca 1 0 false).1 cb 1 (-1) false).2 = some 1
    ∧ (emit (connect (connect emptySig ca 1 0 false).1 cb 1 (-1) false).1 42).2
        = [Event.invoked 1 42, Event.invoked 0 42] := by
  have h1 : connect emptySig ca 1 0 false = (gSigA ca, some 0) := rfl
  have h2 : isUniqueOpt (get_slot (gSigA ca) (fun u => u.callable == cb)) = false := by
    by_cases hab : ca = cb
    · subst hab
      simp [get_slot, snapshot, gSigA, gSlotA, lookup, isUniqueOpt]
    · simp [get_slot, snapshot, gSigA, gSlotA, lookup, isUniqueOpt, hab]
  have h3 : connect (gSigA ca) cb 1 (-1) false = (gSigAB ca cb, some 1) := by
    unfold connect
    rw [h2, if_neg Bool.false_ne_true]
    rfl
  have h4 : emit (gSigAB ca cb) 42
      = (gSigAB ca cb, [Event.invoked 1 42, Event.invoked 0 42]) := rfl
  simp [h1, h3, h4]

theorem updateSlot_map_sid (h : List Slot) (k : Nat) (f : Slot → Slot)
    (hf : ∀ t, (f t).sid = t.sid) :
    (updateSlot h k f).map Slot.sid = h.map Slot.sid := by
  induction h with
  | nil => rfl
  | cons a tl ih =>
    show ((if a.sid == k then f a else a) :: updateSlot tl k f).map Slot.sid = _
    rw [List.map_cons, List.map_cons, ih]
    congr 1
    by_cases hk : a.sid = k
    · simp [hk, hf a]
    · simp [hk]

theorem updateSlot_nomatch (h : List Slot) (k : Nat) (f : Slot → Slot)
    (hall : ∀ t ∈ h, t.sid ≠ k) : updateSlot h k f = h := by
  induction h with
  | nil => rfl
  | cons a tl ih =>
    show (if a.sid == k then f a else a) :: updateSlot tl k f = a :: tl
    have h1 : (a.sid == k) = false := by
      simp [hall a (List.mem_cons_self a tl)]
    rw [h1, if_neg Bool.false_ne_true,
      ih (fun t ht => hall t (List.mem_cons_of_mem a ht))]

/-- Storing connected := false on a slot already disconnected is the
identity on a duplicate-free heap. -/
theorem update_connected_false_eq (h : List Slot) (k : Nat)
    (hnd : (h.map Slot.sid).Nodup) (s2 : Slot)
    (hlk : lookup h k = some s2) (hc : s2.connected = false) :
    updateSlot h k (fun t => { t with connected := false }) = h := by
  induction h with
  | nil => exact absurd hlk (by simp [lookup])
  | cons a tl ih =>
    rw [List.map_cons, List.nodup_cons] at hnd
    show (if a.sid == k then { a with connected := false } else a)
        :: updateSlot tl k (fun t => { t with connected := false }) = a :: tl
    by_cases hk : a.sid = k
    · have h1 : (a.sid == k) = true := by simp [hk]
      rw [lookup_cons, h1] at hlk
      have ha : a = s2 := by simpa using hlk
      have hac : a.connected = false := by rw [ha]; exact hc
      have hfa : ({ a with connected := false } : Slot) = a := by
        cases a
        simp_all
      have htl : updateSlot tl k (fun t => { t with connected := false }) = tl := by
        apply updateSlot_nomatch
        intro t ht he
        have hin : a.sid ∈ tl.map Slot.sid := by
          rw [hk, ← he]
          exact List.mem_map_of_mem Slot.sid ht
        exact hnd.1 hin
      simp [h1, hfa, htl]
    · have h1 : (a.sid == k) = false := by simp [hk]
      rw [lookup_cons, h1] at hlk
      rw [Bool.cond_false] at hlk
      simp [h1, ih hnd.2 hlk]

theorem applyClean_map_sid (st : SigState)
    (r : List (Int × List Nat) × Option (Nat × Nat)) :
    (applyClean st r).heap.map Slot.sid = st.heap.map Slot.sid := by
  rcases r with ⟨gs, mo⟩
  cases mo with
  | none => rfl
  | some mi =>
    simp only [applyClean]
    exact updateSlot_map_sid st.heap mi.1 _ (fun t => rfl)

theorem clean_map_sid (st : SigState) (sid : Nat) :
    (clean st sid).heap.map Slot.sid = st.heap.map Slot.sid := by
  cases hl : lookup st.heap sid with
  | none => rw [clean_eq_none st sid hl]
  | some s =>
    rw [clean_eq_some st sid s hl]
    exact applyClean_map_sid st _

theorem storeDisconnected_map_sid (st : SigState) (sid : Nat) :
    (storeDisconnected st sid).heap.map Slot.sid = st.heap.map Slot.sid :=
  updateSlot_map_sid st.heap sid _ (fun _ => rfl)

/-- C8: on a live, connected slot state, disconnect() returns true and
leaves the state disconnected; a second disconnect on the same state returns
false and changes nothing. -/
theorem disconnect_is_idempotent (st : SigState) (sid : Nat) (s : Slot)
    (hnd : (st.heap.map Slot.sid).Nodup)
    (hlk : lookup st.heap sid = some s) (hc : s.connected = true) :
    (connection.disconnect st (some sid)).2 = true
    ∧ connection.connected (connection.disconnect st (some sid)).1 (some sid)
        = false
    ∧ (connection.disconnect (connection.disconnect st (some sid)).1
        (some sid)).2 = false
    ∧ (connection.disconnect (connection.disconnect st (some sid)).1
        (some sid)).1 = (connection.disconnect st (some sid)).1 := by
  have hd1 : connection.disconnect st (some sid)
      = (clean (storeDisconnected st sid) sid, true) := by
    show slot_state.disconnect st sid = _
    rw [disconnect_eq_some st sid s hlk, if_pos hc]
  have hsd : lookup (storeDisconnected st sid).heap sid
      = some { s with connected := false } := by
    show lookup (updateSlot st.heap sid _) sid = _
    rw [lookup_update_self st.heap sid (fun t => { t with connected := false })
      (fun t => rfl), hlk]
    rfl
  have hcore := clean_core (storeDisconnected st sid) sid sid
  rw [hsd] at hcore
  cases hl2 : lookup (clean (storeDisconnected st sid) sid).heap sid with
  | none => rw [hl2] at hcore; cases hcore
  | some s2 =>
    rw [hl2] at hcore
    have hcore2 : coreOf s2 = coreOf { s with connected := false } :=
      Option.some.inj hcore
    have hc2 : s2.connected = false := by
      rw [← coreOf_connected s2, hcore2, coreOf_connected]
    have hnd2 : ((clean (storeDisconnected st sid) sid).heap.map Slot.sid).Nodup := by
      rw [clean_map_sid, storeDisconnected_map_sid]
      exact hnd
    have hd2 : connection.disconnect (clean (storeDisconnected st sid) sid)
        (some sid)
        = (storeDisconnected (clean (storeDisconnected st sid) sid) sid, false) := by
      show slot_state.disconnect _ sid = _
      rw [disconnect_eq_some _ sid s2 hl2,
        if_neg (by rw [hc2]; exact Bool.false_ne_true)]
    have hst2 : storeDisconnected (clean (storeDisconnected st sid) sid) sid
        = clean (storeDisconnected st sid) sid := by
      show ({ clean (storeDisconnected st sid) sid with
        heap := updateSlot (clean (storeDisconnected st sid) sid).heap sid
          (fun t => { t with connected := false }) } : SigState) = _
      rw [update_connected_false_eq _ sid hnd2 s2 hl2 hc2]
    refine ⟨?_, ?_, ?_, ?_⟩
    · rw [hd1]
    · simp [hd1, connection.connected, hl2, hc2]
    · simp [hd1, hd2]
    · simp [hd1, hd2, hst2]

theorem disconnect_is_idempotent_witness :
    (connection.disconnect wSig (some 0)).2 = true
    ∧ connection.connected (connection.disconnect wSig (some 0)).1 (some 0)
        = false
    ∧ (connection.disconnect (connection.disconnect wSig (some 0)).1
        (some 0)).2 = false
    ∧ (connection.disconnect (connection.disconnect wSig (some 0)).1
        (some 0)).1 = (connection.disconnect wSig (some 0)).1 :=
  disconnect_is_idempotent wSig 0 wSlotA (by decide) (by decide) rfl

/-- C9: the signal destructor runs disconnect_all, and afterwards every
connection handle into the signal reports connected() = false (and is no
longer valid: its weak state pointer is expired). -/
theorem destructor_disconnects_all_slots (st : SigState) (conn : Option Nat) :
    destroySignal st = disconnect_all st
    ∧ connection.connected (destroySignal st) conn = false
    ∧ connection.valid (destroySignal st) conn = false := by
  refine ⟨rfl, ?_, ?_⟩ <;> cases conn <;> rfl

/-- C10: both connect overloads scan for an equal-callable (resp. equal
object/callable) slot unconditionally and refuse the connection whenever the
found slot is unique, whatever the new call\'s type flags are: the state is
returned untouched together with an already-disconnected connection. -/
theorem unique_refusal_keyed_on_existing_slot (st : SigState) (c o : Nat)
    (type : Nat) (gid : Int) (q : Bool) (u v : Slot)
    (hu : get_slot st (fun t => t.callable == c) = some u)
    (huq : u.unique = true)
    (hv : get_slot st (fun t => t.obj == some o && t.callable == c) = some v)
    (hvq : v.unique = true) :
    connect st c type gid q = (st, none)
    ∧ connect_pmf st o c type gid q = (st, none) := by
  constructor
  · unfold connect
    rw [hu]
    rw [if_pos (show isUniqueOpt (some u) = true from huq)]
  · unfold connect_pmf
    rw [hv]
    rw [if_pos (show isUniqueOpt (some v) = true from hvq)]

/-- A slot installed as unique, storing object 1 and callable 2. -/
def wUniqueSlot : Slot :=
  { sid := 0, callable := 2, obj := some 1, index := 0, group := 0,
    connected := true, blocked := false, unique := true, singleshot := false,
    emitted := false, ctype := 1, qcur := false }

/-- A signal holding only that unique slot. -/
def wUniqueSig : SigState :=
  { heap := [wUniqueSlot], groups := [(0, [0])], sblock := false, nextSid := 1 }

theorem unique_refusal_keyed_on_existing_slot_witness :
    connect wUniqueSig 2 1 0 false = (wUniqueSig, none)
    ∧ connect_pmf wUniqueSig 1 2 1 0 false = (wUniqueSig, none) :=
  unique_refusal_keyed_on_existing_slot wUniqueSig 2 1 1 0 false wUniqueSlot
    wUniqueSlot (by decide) rfl (by decide) rfl

end sigslot

namespace base

/-- The view of the target task queue one marshal call needs: whether the
calling thread is that queue (tq->IsCurrent()), and how many closures have
been posted to it. -/
structure QueueState where
  isCurrent : Bool
  posted : Nat
deriving DecidableEq

/-- details::MethodCall, src/proxy.hpp:100: target object pointer, member
function pointer and the stored argument tuple, specialized to one Int
argument and an Int result as in the doubling scenario; `α` is the target
class C. -/
structure MethodCall (α : Type) where
  c : α
  m : α → Int → Int
  arg : Int

/-- details::MethodCall::marshal, src/proxy.hpp:114: when the calling thread
already is the target queue, invoke the bound member function inline through
ReturnType::invoke and return r_.get() — nothing is posted and the semaphore
is never waited on.  Otherwise post a closure that invokes the function,
stores the result and signals the semaphore, and block the caller on the
semaphore with no timeout; sequentially the returned value is the stored
invocation result.  Returns the result, the queue state after the call and
whether the caller blocked on the semaphore. -/
def MethodCall.marshal {α : Type} (mc : MethodCall α) (q : QueueState) :
    Int × QueueState × Bool :=
  if q.isCurrent then
    (mc.m mc.c mc.arg, q, false)
  else
    (mc.m mc.c mc.arg, { q with posted := q.posted + 1 }, true)

/-- C2: marshal returns the value of the bound member function applied to the
stored argument; when the calling thread already is the target queue the call
happens inline: no task is posted and the caller never blocks.  In
particular a doubling method returns 84 for input 42. -/
theorem marshal_returns_bound_member_result {α : Type} (mc : MethodCall α)
    (q : QueueState) :
    (mc.marshal q).1 = mc.m mc.c mc.arg
    ∧ (q.isCurrent = true → mc.marshal q = (mc.m mc.c mc.arg, q, false))
    ∧ ((MethodCall.mk PUnit.unit (fun _ x => 2 * x) 42).marshal q).1 = 84 := by
  refine ⟨?_, ?_, ?_⟩
  · unfold MethodCall.marshal
    by_cases h : q.isCurrent = true
    · rw [if_pos h]
    · rw [if_neg h]
  · intro h
    unfold MethodCall.marshal
    rw [if_pos h]
  · unfold MethodCall.marshal
    by_cases h : q.isCurrent = true
    · rw [if_pos h]
      norm_num
    · rw [if_neg h]
      norm_num

theorem marshal_returns_bound_member_result_witness :
    ((MethodCall.mk PUnit.unit (fun _ x => 2 * x) 42).marshal ⟨true, 0⟩)
      = (84, ⟨true, 0⟩, false) := by
  have h :=
    (marshal_returns_bound_member_result
      (MethodCall.mk PUnit.unit (fun _ x => 2 * x) 42) ⟨true, 0⟩).2.1 rfl
  simpa using h

end base

namespace observable

/-- ObserverPriority, src/observable.hpp:24.  The declaration order of the
scoped enum gives High the underlying value 0, Normal 1 and Low 2; the
built-in comparison the insertion and sorts use compares these underlying
values. -/
inductive ObserverPriority where
  | High
  | Normal
  | Low
deriving DecidableEq

/-- The underlying integral value of the scoped enum. -/
def prioVal : ObserverPriority → Nat
  | .High => 0
  | .Normal => 1
  | .Low => 2

/-- One stored Wrapper entry, src/observable.hpp:806: observer identity,
weak or strong mode, liveness of the weak target, priority, bound queue and
token id. -/
structure Wrapper where
  oid : Nat
  weak : Bool
  alive : Bool
  prio : ObserverPriority
  taskQ : Option Nat
  tokenId : Nat
deriving DecidableEq

/-- The Observable state the claims need: the entry list, the notification
counter and the cleanup frequency. -/
structure Observable where
  observers : List Wrapper
  notificationCounter : Nat
  weakRefCleanupFrequency : Nat
deriving DecidableEq

/-- The scan loop of Observable::_insertWithPriority, src/observable.hpp:352:
walk from the front, insert the new entry before the first current entry for
which `ref.priority > currentPriority` holds (comparison of underlying
values), otherwise append at the end. -/
def insertLoop (ref : Wrapper) : List Wrapper → List Wrapper
  | [] => [ref]
  | cur :: rest =>
    if prioVal ref.prio > prioVal cur.prio then ref :: cur :: rest
    else cur :: insertLoop ref rest

/-- Observable::_insertWithPriority, src/observable.hpp:344: an empty list or
a Low-priority entry appends directly; otherwise run the scan loop. -/
def insertWithPriority (obs : List Wrapper) (ref : Wrapper) : List Wrapper :=
  if obs.isEmpty || ref.prio == ObserverPriority.Low then obs ++ [ref]
  else insertLoop ref obs

/-- Observable::_findObserver_nolock, src/observable.hpp:302: a weak entry
matches when its lock succeeds and yields the observer; a strong entry
matches on pointer equality. -/
def matchesObserver (oid : Nat) (w : Wrapper) : Bool :=
  if w.weak then w.alive && w.oid == oid else w.oid == oid

/-- Observable::_hasObserver_nolock, src/observable.hpp:338. -/
def hasObserver (obs : List Wrapper) (oid : Nat) : Bool :=
  obs.any (matchesObserver oid)

/-- Observable::addObserver, src/observable.hpp:96: skip duplicates, else
priority-insert a StrongRef wrapper. -/
def addObserver (st : Observable) (oid : Nat) (taskQ : Option Nat)
    (prio : ObserverPriority) (tokenId : Nat) : Observable :=
  if hasObserver st.observers oid then st
  else
    { st with observers := (insertWithPriority st.observers
        { oid := oid, weak := false, alive := true, prio := prio,
          taskQ := taskQ, tokenId := tokenId }) }

/-- Observable::addObserverWeakRef, src/observable.hpp:109: skip duplicates,
else priority-insert a WeakRef wrapper. -/
def addObserverWeakRef (st : Observable) (oid : Nat) (taskQ : Option Nat)
    (prio : ObserverPriority) (tokenId : Nat) : Observable :=
  if hasObserver st.observers oid then st
  else
    { st with observers := (insertWithPriority st.observers
        { oid := oid, weak := true, alive := true, prio := prio,
          taskQ := taskQ, tokenId := tokenId }) }

/-- Releasing the owning strong reference of a weak observer: its weak
entries expire. -/
def expireObserver (st : Observable) (oid : Nat) : Observable :=
  { st with observers := (st.observers.map
      (fun w => if w.weak && w.oid == oid then { w with alive := false } else w)) }

/-- Observable::_cleanupWeakReferences, src/observable.hpp:405: remove_if on
expired weak entries; returns the new list and beforeSize - afterSize. -/
def cleanupWeakReferences (obs : List Wrapper) : List Wrapper × Nat :=
  (obs.filter (fun w => !(w.weak && !w.alive)),
    obs.length - (obs.filter (fun w => !(w.weak && !w.alive))).length)

/-- Observable::_countValidObservers_nolock, src/observable.hpp:322: strong
entries always count, weak entries only while not expired. -/
def countValidObservers (obs : List Wrapper) : Nat :=
  obs.countP (fun w => !w.weak || w.alive)

/-- Observable::numOfObservers, src/observable.hpp:270. -/
def numOfObservers (st : Observable) : Observable × Nat :=
  (st, countValidObservers st.observers)

/-- The descending-priority sort of _notifyObserversImpl,
src/observable.hpp:545 (comparator priorityA > priorityB on underlying
values; std::sort is unstable, mergeSort here fixes one permitted order). -/
def sortByPriorityDesc (obs : List Wrapper) : List Wrapper :=
  obs.mergeSort (fun a b => decide (prioVal b.prio ≤ prioVal a.prio))

/-- The dispatch loop of Observable::_notifyObserversImpl,
src/observable.hpp:529: order the snapshot (unless preserveOrder), lock each
entry (expired weak entries are skipped) and notify it.  Returns the oids
notified, in order. -/
def dispatchList (obs : List Wrapper) (preserveOrder : Bool) : List Nat :=
  (if preserveOrder then obs else sortByPriorityDesc obs).filterMap
    (fun w => if w.weak && !w.alive then none else some w.oid)

/-- Observable::notifyObservers, src/observable.hpp:423: when cleanup is not
skipped, ++_notificationCounter is evaluated and, when it is a multiple of
the cleanup frequency, expired weak entries are purged under the write lock
before the snapshot is taken; when options.skipWeakRefCleanup is set the
whole condition short-circuits and the counter is not incremented.  Returns
the new state and the notified oids. -/
def notifyObservers (st : Observable) (skipWeakRefCleanup : Bool)
    (preserveOrder : Bool) : Observable × List Nat :=
  if skipWeakRefCleanup then
    (st, dispatchList st.observers preserveOrder)
  else if (st.notificationCounter + 1) % st.weakRefCleanupFrequency == 0 then
    ({ st with
        notificationCounter := st.notificationCounter + 1
        observers := (cleanupWeakReferences st.observers).1 },
      dispatchList (cleanupWeakReferences st.observers).1 preserveOrder)
  else
    ({ st with notificationCounter := st.notificationCounter + 1 },
      dispatchList st.observers preserveOrder)

/-- Observable::performWeakRefCleanup, src/observable.hpp:745. -/
def performWeakRefCleanup (st : Observable) : Observable × Nat :=
  ({ st with observers := (cleanupWeakReferences st.observers).1 },
    (cleanupWeakReferences st.observers).2)

/-- A fresh Observable: cleanup frequency defaults to 1,
src/observable.hpp:814. -/
def freshObservable : Observable :=
  { observers := [], notificationCounter := 0, weakRefCleanupFrequency := 1 }

/-- The High-priority strong entry of the C6 failing input. -/
def wHigh : Wrapper :=
  { oid := 1, weak := false, alive := true, prio := ObserverPriority.High,
    taskQ := none, tokenId := 0 }

/-- The Normal-priority strong entry added second. -/
def wNormal : Wrapper :=
  { oid := 2, weak := false, alive := true, prio := ObserverPriority.Normal,
    taskQ := none, tokenId := 0 }

/-- C6, evaluated at the failing input: adding a High-priority observer and
then a Normal-priority observer leaves the list as [Normal, High] — the
insertion walk placed the new Normal entry before the existing High entry.
The scoped enum declares High first, so High has the smallest underlying
value and the `ref.priority > currentPriority` test compares backwards,
contradicting the priority-ordered insertion the spec (and the code\'s own
comment at src/observable.hpp:365) describes, which requires [High, Normal].
-/
theorem insert_places_normal_before_high :
    (addObserver (addObserver freshObservable 1 none ObserverPriority.High 0)
        2 none ObserverPriority.Normal 0).observers = [wNormal, wHigh] := by
  decide

/-- The C7 scenario right before the notify call: one weak observer whose
owning strong reference has been released, cleanup frequency 1. -/
def c7Setup : Observable :=
  expireObserver
    (addObserverWeakRef freshObservable 5 none ObserverPriority.Normal 0) 5

/-- C7, counterexample: after one notifyObservers call with default options,
numOfObservers() is 0 as claimed, but the subsequent performWeakRefCleanup()
reports 0 cleaned entries, not 1: the notify call (frequency 1) already
purged the expired entry itself. -/
theorem cleanup_after_notify_reports_zero_not_one :
    (numOfObservers (notifyObservers c7Setup false false).1).2 = 0
    ∧ (performWeakRefCleanup (notifyObservers c7Setup false false).1).2 ≠ 1 := by
  decide

/-- C7 as amended: with cleanup frequency 1, a single notifyObservers call
with default options itself purges the expired weak entry: numOfObservers()
afterwards is 0 and a subsequent performWeakRefCleanup() finds nothing left
and reports 0 cleaned entries. -/
theorem notify_purges_expired_weak_entry (oid tok : Nat) (q : Option Nat)
    (prio : ObserverPriority) :
    (numOfObservers (notifyObservers (expireObserver
        (addObserverWeakRef freshObservable oid q prio tok) oid)
        false false).1).2 = 0
    ∧ (performWeakRefCleanup (notifyObservers (expireObserver
        (addObserverWeakRef freshObservable oid q prio tok) oid)
        false false).1).2 = 0 := by
  have h2 : expireObserver (addObserverWeakRef freshObservable oid q prio tok) oid
      = { observers := [{ oid := oid, weak := true, alive := false,
                          prio := prio, taskQ := q, tokenId := tok }]
          notificationCounter := 0
          weakRefCleanupFrequency := 1 } := by
    simp [addObserverWeakRef, hasObserver, freshObservable, insertWithPriority,
      expireObserver, matchesObserver]
  rw [h2]
  refine ⟨?_, ?_⟩ <;>
    simp [notifyObservers, numOfObservers, countValidObservers,
      cleanupWeakReferences, performWeakRefCleanup]

end observable


